import Mathlib

/-!
Verification of the rating-and-balancing core of the matchmaking web app.

The definitions below are shallow embeddings of the TypeScript source:
  * `src/app/types.ts`            — the data model (players, roles, statistics)
  * `src/firebase/mmrService.ts`  — Elo-style rating update, tier ladder, team averages
  * `src/firebase/glicko2Service.ts` — rating snapshot with uncertainty decay,
    reliability helpers
  * `src/firebase/matchService.ts` — per-match statistics update
  * `src/app/teams/page.tsx`      — the team balancer (snake draft + refinement loop)

JavaScript numbers are idealised: quantities combined only by field operations
and comparisons are embedded as `ℚ`, quantities that flow through transcendental
functions (`Math.pow` with real exponent, `Math.exp`, `Math.log`) as `ℝ`.
`Math.round` is JavaScript round-half-up, which is exactly Mathlib's `round`
(`⌊x + 1/2⌋`); `Math.ceil` is `⌈·⌉`; `Math.max` is `max`.  The balancer's calls
to `Math.random()` are parametrised by an explicit list of choices, one pair of
numbers per trial iteration of the refinement loop.
-/

/-- The five lane roles of `src/app/types.ts` (`type Role`). -/
inductive Role where
  | Roam
  | Mid
  | Gold
  | Jungle
  | Exp
  deriving DecidableEq, Repr

/-- Accumulated player statistics as used by the rating / balancing code
(`PlayerStats` of `src/app/types.ts`, plus the `mmr` field that
`mmrService.ts` and `teams/page.tsx` read from `player.stats`). -/
structure PlayerStats where
  wins : ℕ
  losses : ℕ
  matchesPlayed : ℕ
  winRate : ℚ
  mmr : ℚ
  deriving DecidableEq, Repr

/-- A player record (`interface Player` of `src/app/types.ts`, with the
top-level `mmr` field the services read). -/
structure Player where
  name : String
  mmr : ℚ
  roles : List Role
  isSelected : Bool
  stats : Option PlayerStats
  deriving DecidableEq, Repr

/-- The JavaScript access pattern `player.stats?.mmr || player.mmr` used
throughout `mmrService.ts` and `teams/page.tsx`: the statistics MMR when
present and truthy (non-zero), else the top-level MMR. -/
def getPlayerMmr (p : Player) : ℚ :=
  match p.stats with
  | some s => if s.mmr = 0 then p.mmr else s.mmr
  | none => p.mmr

/-- `K_FACTOR` of `src/firebase/mmrService.ts`. -/
def K_FACTOR : ℝ := 32

/-- `calculateWinProbability` of `src/firebase/mmrService.ts`:
`1 / (1 + Math.pow(10, (mmr2 - mmr1) / 400))`. -/
noncomputable def calculateWinProbability (mmr1 mmr2 : ℝ) : ℝ :=
  1 / (1 + (10 : ℝ) ^ ((mmr2 - mmr1) / 400))

/-- `calculateNewMmr` of `src/firebase/mmrService.ts`. -/
noncomputable def calculateNewMmr (playerMmr opponentMmr : ℝ) (didWin : Bool) : ℝ :=
  let winProbability := calculateWinProbability playerMmr opponentMmr
  let actualResult : ℝ := if didWin then 1 else 0
  let mmrChange : ℤ := round (K_FACTOR * (actualResult - winProbability))
  playerMmr + mmrChange

/-- `calculateTeamAverageMmr` of `src/firebase/mmrService.ts`: 0 for an empty
list, otherwise `Math.round` of the `reduce`-accumulated MMR sum divided by the
list length. -/
def calculateTeamAverageMmr (players : List Player) : ℤ :=
  if players.length = 0 then 0
  else
    let totalMmr : ℚ := players.foldl (fun sum p => sum + getPlayerMmr p) 0
    round (totalMmr / (players.length : ℚ))

/-- The eight-tier ladder (`type MmrTier` of `src/firebase/mmrService.ts`). -/
inductive MmrTier where
  | Budlot
  | Bulotay
  | Maaramay
  | Maaram
  | Makaritay
  | Makarit
  | MakaritKaritan
  | Gikakariti
  deriving DecidableEq, Repr

/-- The string literal of each tier of the `MmrTier` union type. -/
def MmrTier.label : MmrTier → String
  | .Budlot => "Budlot"
  | .Bulotay => "Bulotay"
  | .Maaramay => "Maaramay"
  | .Maaram => "Maaram"
  | .Makaritay => "Makaritay"
  | .Makarit => "Makarit"
  | .MakaritKaritan => "MakaritKaritan"
  | .Gikakariti => "Gikakariti"

/-- `DEFAULT_MMR_VALUES` of `src/firebase/mmrService.ts`. -/
def DEFAULT_MMR_VALUES : MmrTier → ℚ
  | .Budlot => 900
  | .Bulotay => 1000
  | .Maaramay => 1200
  | .Maaram => 1400
  | .Makaritay => 1600
  | .Makarit => 1800
  | .MakaritKaritan => 2000
  | .Gikakariti => 2200

/-- `getMmrDefaultValue` of `src/firebase/mmrService.ts`. -/
def getMmrDefaultValue (tier : MmrTier) : ℚ :=
  DEFAULT_MMR_VALUES tier

/-- `getMmrTierName` of `src/firebase/mmrService.ts`: descending-threshold
lookup returning the tier's name. -/
def getMmrTierName (mmr : ℚ) : String :=
  if 2200 ≤ mmr then "Gikakariti"
  else if 2000 ≤ mmr then "MakaritKaritan"
  else if 1800 ≤ mmr then "Makarit"
  else if 1600 ≤ mmr then "Makaritay"
  else if 1400 ≤ mmr then "Maaram"
  else if 1200 ≤ mmr then "Maaramay"
  else if 1000 ≤ mmr then "Bulotay"
  else "Budlot"

/-- Position of a tier name in the 8-tier ladder, lowest (`"Budlot"`) = 0 up to
highest (`"Gikakariti"`) = 7. -/
def tierLadderIndex (tierName : String) : ℕ :=
  if tierName = "Gikakariti" then 7
  else if tierName = "MakaritKaritan" then 6
  else if tierName = "Makarit" then 5
  else if tierName = "Makaritay" then 4
  else if tierName = "Maaram" then 3
  else if tierName = "Maaramay" then 2
  else if tierName = "Bulotay" then 1
  else 0

/-- Accumulating a `foldl` MMR sum equals the starting value plus the
mapped sum (the `reduce` in `calculateTeamAverageMmr`). -/
theorem foldl_add_getPlayerMmr (players : List Player) (a : ℚ) :
    players.foldl (fun sum p => sum + getPlayerMmr p) a
      = a + (players.map getPlayerMmr).sum := by
  induction players generalizing a with
  | nil => simp
  | cons p ps ih => simp [ih, add_assoc]

/-- C1: the simple per-match update returns `p + round(32 * (a - E))` with
`a = 1` iff the player won and `E = 1/(1 + 10^((o-p)/400))`; in particular, at
ratings 1500 vs 1500 the winner moves to 1516 and the loser to 1484. -/
theorem calculateNewMmr_formula :
    (∀ p o : ℝ, ∀ didWin : Bool,
      calculateNewMmr p o didWin =
        p + (round ((32 : ℝ) *
          ((if didWin then (1 : ℝ) else 0) - 1 / (1 + (10 : ℝ) ^ ((o - p) / 400)))) : ℤ))
    ∧ calculateNewMmr 1500 1500 true = 1516
    ∧ calculateNewMmr 1500 1500 false = 1484 := by
  have hpow : ((1500 : ℝ) - 1500) / 400 = 0 := by norm_num
  have h10 : (10 : ℝ) ^ (((1500 : ℝ) - 1500) / 400) = 1 := by
    rw [hpow, Real.rpow_zero]
  refine ⟨fun p o didWin => rfl, ?_, ?_⟩
  · show (1500 : ℝ) + (round (K_FACTOR * ((1 : ℝ) - calculateWinProbability 1500 1500)) : ℤ) = 1516
    rw [calculateWinProbability, h10]
    have : K_FACTOR * ((1 : ℝ) - 1 / (1 + 1)) = ((16 : ℤ) : ℝ) := by
      rw [K_FACTOR]; norm_num
    rw [this, round_intCast]
    norm_num
  · show (1500 : ℝ) + (round (K_FACTOR * ((0 : ℝ) - calculateWinProbability 1500 1500)) : ℤ) = 1484
    rw [calculateWinProbability, h10]
    have : K_FACTOR * ((0 : ℝ) - 1 / (1 + 1)) = ((-16 : ℤ) : ℝ) := by
      rw [K_FACTOR]; norm_num
    rw [this, round_intCast]
    norm_num

/-- C4: labelling the default rating of each tier recovers exactly that tier:
`getMmrTierName (getMmrDefaultValue t) = t.label` for all 8 tiers. -/
theorem tier_defaultValue_roundtrip :
    ∀ t : MmrTier, getMmrTierName (getMmrDefaultValue t) = t.label := by
  intro t
  cases t <;> rfl

/-- Numeric form of the ladder index of a looked-up tier name. -/
theorem tierLadderIndex_getMmrTierName (r : ℚ) :
    tierLadderIndex (getMmrTierName r) =
      if 2200 ≤ r then 7
      else if 2000 ≤ r then 6
      else if 1800 ≤ r then 5
      else if 1600 ≤ r then 4
      else if 1400 ≤ r then 3
      else if 1200 ≤ r then 2
      else if 1000 ≤ r then 1
      else 0 := by
  unfold getMmrTierName
  split_ifs <;> rfl

set_option maxHeartbeats 1000000 in
/-- C9: the tier lookup is monotone — a strictly higher rating never maps to a
tier with a smaller ladder index. -/
theorem tier_lookup_monotone (r1 r2 : ℚ) (h : r2 < r1) :
    tierLadderIndex (getMmrTierName r2) ≤ tierLadderIndex (getMmrTierName r1) := by
  rw [tierLadderIndex_getMmrTierName, tierLadderIndex_getMmrTierName]
  split_ifs <;> first | omega | linarith

/-- Witness for C9 at the concrete ratings 2200 and 900. -/
theorem tier_lookup_monotone_witness :
    (900 : ℚ) < 2200
      ∧ tierLadderIndex (getMmrTierName 900) ≤ tierLadderIndex (getMmrTierName 2200) :=
  ⟨by norm_num, tier_lookup_monotone 2200 900 (by norm_num)⟩

/-- C10: `calculateTeamAverageMmr` returns 0 on the empty list (the division is
guarded), and on a non-empty list returns the rounded arithmetic mean of the
players' effective MMRs (`stats.mmr` when truthy, else the top-level `mmr`). -/
theorem calculateTeamAverageMmr_spec :
    calculateTeamAverageMmr [] = 0
    ∧ ∀ players : List Player, players ≠ [] →
        calculateTeamAverageMmr players =
          round ((players.map getPlayerMmr).sum / (players.length : ℚ)) := by
  refine ⟨rfl, fun players hne => ?_⟩
  have hlen : players.length ≠ 0 := by
    simpa [List.length_eq_zero] using hne
  rw [calculateTeamAverageMmr, if_neg hlen]
  rw [foldl_add_getPlayerMmr, zero_add]

/-- Witness for C10 on a concrete two-player team with MMRs 1500 and 1400. -/
theorem calculateTeamAverageMmr_witness :
    ([⟨"A", 1500, [], true, none⟩, ⟨"B", 1400, [], true, none⟩] ≠ ([] : List Player))
    ∧ calculateTeamAverageMmr [⟨"A", 1500, [], true, none⟩, ⟨"B", 1400, [], true, none⟩]
        = round ((([⟨"A", 1500, [], true, none⟩, ⟨"B", 1400, [], true, none⟩].map getPlayerMmr).sum
            / (([⟨"A", 1500, [], true, none⟩, ⟨"B", 1400, [], true, none⟩] : List Player).length : ℚ))) :=
  ⟨by decide, calculateTeamAverageMmr_spec.2 _ (by decide)⟩

/-- Matches played as read by `playerToGlicko2`
(`player.stats?.matchesPlayed || 0`). -/
def matchesPlayedOf (p : Player) : ℕ :=
  match p.stats with
  | some s => s.matchesPlayed
  | none => 0

/-- A Glicko-2 rating triple (`interface Glicko2Rating` of
`src/firebase/glicko2Service.ts`). -/
structure Glicko2Rating where
  rating : ℝ
  rd : ℝ
  volatility : ℝ

/-- `g1ToG2` of `src/firebase/glicko2Service.ts`. -/
noncomputable def g1ToG2 (rating : ℝ) : ℝ :=
  (rating - 1500) / 173.7178

/-- `rdToG2` of `src/firebase/glicko2Service.ts`. -/
noncomputable def rdToG2 (rd : ℝ) : ℝ :=
  rd / 173.7178

/-- `playerToGlicko2` of `src/firebase/glicko2Service.ts`: display-scale
uncertainty `max(350 * e^(-matchesPlayed / 2.04), 50)` converted to the
internal scale, with fixed initial volatility 0.06. -/
noncomputable def playerToGlicko2 (player : Player) : Glicko2Rating :=
  let matchesPlayed := matchesPlayedOf player
  let k : ℝ := 2.04
  let rd : ℝ := max (350 * Real.exp (-(matchesPlayed : ℝ) / k)) 50
  { rating := g1ToG2 ((getPlayerMmr player : ℚ) : ℝ)
    rd := rdToG2 rd
    volatility := 0.06 }

/-- `getMatchesForReliableRating` of `src/firebase/glicko2Service.ts`:
early return 0 once the display-scale deviation is at most 100, otherwise
invert the decay formula and subtract from the calibration target 7. -/
noncomputable def getMatchesForReliableRating (rd : ℝ) : ℤ :=
  let glicko1Rd := rd * 173.7178
  if glicko1Rd ≤ 100 then 0
  else
    let matchesPlayed := ⌈(-2.04) * Real.log (glicko1Rd / 350)⌉
    max 0 (7 - matchesPlayed)

/-- The display-scale uncertainty of the snapshot, recovered from the stored
internal-scale `rd`. -/
theorem playerToGlicko2_rd_display (p : Player) :
    (playerToGlicko2 p).rd * 173.7178
      = max (350 * Real.exp (-(matchesPlayedOf p : ℝ) / 2.04)) 50 := by
  show rdToG2 _ * 173.7178 = _
  rw [rdToG2, div_mul_cancel₀]
  norm_num

/-- C5: the display-scale uncertainty computed by `playerToGlicko2` equals
`max(350 · e^(-matchesPlayed/2.04), 50)`, lies in `[50, 350]`, is
non-increasing in matches played, is 350 at 0 matches and 50 at 5 matches. -/
theorem playerToGlicko2_uncertainty (p q : Player) :
    ((playerToGlicko2 p).rd * 173.7178
        = max (350 * Real.exp (-(matchesPlayedOf p : ℝ) / 2.04)) 50)
    ∧ 50 ≤ (playerToGlicko2 p).rd * 173.7178
    ∧ (playerToGlicko2 p).rd * 173.7178 ≤ 350
    ∧ (matchesPlayedOf p ≤ matchesPlayedOf q →
        (playerToGlicko2 q).rd * 173.7178 ≤ (playerToGlicko2 p).rd * 173.7178)
    ∧ (matchesPlayedOf p = 0 → (playerToGlicko2 p).rd * 173.7178 = 350)
    ∧ (matchesPlayedOf p = 5 → (playerToGlicko2 p).rd * 173.7178 = 50) := by
  have hexp_le_one : ∀ m : ℕ, Real.exp (-(m : ℝ) / 2.04) ≤ 1 := by
    intro m
    rw [Real.exp_le_one_iff, neg_div]
    have hq : (0 : ℝ) ≤ (m : ℝ) / 2.04 := by positivity
    linarith
  refine ⟨playerToGlicko2_rd_display p, ?_, ?_, ?_, ?_, ?_⟩
  · rw [playerToGlicko2_rd_display]
    exact le_max_right _ _
  · rw [playerToGlicko2_rd_display]
    refine max_le ?_ (by norm_num)
    have := hexp_le_one (matchesPlayedOf p)
    nlinarith
  · intro hm
    rw [playerToGlicko2_rd_display, playerToGlicko2_rd_display]
    refine max_le_max ?_ le_rfl
    have hmono : Real.exp (-(matchesPlayedOf q : ℝ) / 2.04)
        ≤ Real.exp (-(matchesPlayedOf p : ℝ) / 2.04) := by
      rw [Real.exp_le_exp, neg_div, neg_div, neg_le_neg_iff]
      have hc : (matchesPlayedOf p : ℝ) ≤ (matchesPlayedOf q : ℝ) := by exact_mod_cast hm
      gcongr
    nlinarith
  · intro h0
    rw [playerToGlicko2_rd_display, h0]
    norm_num [Real.exp_zero]
  · intro h5
    rw [playerToGlicko2_rd_display, h5]
    have e2 : (7 : ℝ) < Real.exp 2 := by
      have hsq : Real.exp 2 = Real.exp 1 * Real.exp 1 := by
        rw [← Real.exp_add]; norm_num
      have := Real.exp_one_gt_d9
      nlinarith
    have e3 : (7 : ℝ) < Real.exp ((5 : ℝ) / 2.04) :=
      lt_of_lt_of_le e2 (Real.exp_le_exp.mpr (by norm_num))
    have hle : 350 * Real.exp (-((5 : ℕ) : ℝ) / 2.04) ≤ 50 := by
      have hrw : -(((5 : ℕ) : ℝ)) / 2.04 = -((5 : ℝ) / 2.04) := by push_cast; ring
      rw [hrw, Real.exp_neg]
      have hpos := Real.exp_pos ((5 : ℝ) / 2.04)
      rw [inv_eq_one_div, mul_one_div, div_le_iff hpos]
      nlinarith
    exact max_eq_right hle

/-- C3 counterexample: at display-scale uncertainty 100 (internal argument
`100 / 173.7178`) the code takes the early-reliable branch and returns 0,
while the claimed closed form `max(0, 7 - ceil(-2.04 · ln(u/350)))` is
positive. -/
theorem getMatchesForReliableRating_claim_false :
    getMatchesForReliableRating ((100 : ℝ) / 173.7178) ≠
      max 0 (7 - ⌈(-2.04) * Real.log ((100 : ℝ) / 350)⌉) := by
  have hL : getMatchesForReliableRating ((100 : ℝ) / 173.7178) = 0 := by
    show (if ((100 : ℝ) / 173.7178) * 173.7178 ≤ 100 then (0 : ℤ) else _) = 0
    rw [if_pos (by norm_num)]
  have hlog : Real.log ((100 : ℝ) / 350) = -Real.log (3.5 : ℝ) := by
    rw [show ((100 : ℝ) / 350) = (3.5 : ℝ)⁻¹ by norm_num, Real.log_inv]
  have hceil : ⌈(-2.04) * Real.log ((100 : ℝ) / 350)⌉ ≤ 6 := by
    rw [Int.ceil_le, hlog]
    have h4 : Real.log (3.5 : ℝ) ≤ Real.log 4 :=
      Real.log_le_log (by norm_num) (by norm_num)
    have l4 : Real.log (4 : ℝ) = 2 * Real.log 2 := by
      rw [show (4 : ℝ) = 2 ^ 2 by norm_num, Real.log_pow]
      push_cast; ring
    have hl2 := Real.log_two_lt_d9
    push_cast
    nlinarith
  have hub : (1 : ℤ) ≤ max 0 (7 - ⌈(-2.04) * Real.log ((100 : ℝ) / 350)⌉) :=
    le_max_of_le_right (by omega)
  rw [hL]
  intro heq
  rw [← heq] at hub
  exact absurd hub (by norm_num)

/-- C3 amended: for display-scale uncertainty strictly above the
early-reliable threshold 100 the function returns
`max(0, 7 - ceil(-2.04 · ln(u/350)))`; at or below 100 it returns 0; and at
`u = 350` (a brand-new player) it returns 7. -/
theorem getMatchesForReliableRating_amended (u : ℝ) :
    (100 < u → getMatchesForReliableRating (u / 173.7178)
        = max 0 (7 - ⌈(-2.04) * Real.log (u / 350)⌉))
    ∧ (u ≤ 100 → getMatchesForReliableRating (u / 173.7178) = 0)
    ∧ getMatchesForReliableRating ((350 : ℝ) / 173.7178) = 7 := by
  have hcancel : ∀ x : ℝ, (x / 173.7178) * 173.7178 = x := by
    intro x
    rw [div_mul_cancel₀]
    norm_num
  refine ⟨?_, ?_, ?_⟩
  · intro hu
    show (if (u / 173.7178) * 173.7178 ≤ 100 then (0 : ℤ)
        else max 0 (7 - ⌈(-2.04) * Real.log ((u / 173.7178) * 173.7178 / 350)⌉)) = _
    rw [hcancel, if_neg (by linarith)]
  · intro hu
    show (if (u / 173.7178) * 173.7178 ≤ 100 then (0 : ℤ) else _) = 0
    rw [hcancel, if_pos hu]
  · show (if ((350 : ℝ) / 173.7178) * 173.7178 ≤ 100 then (0 : ℤ)
        else max 0 (7 - ⌈(-2.04) * Real.log (((350 : ℝ) / 173.7178) * 173.7178 / 350)⌉)) = 7
    rw [hcancel, if_neg (by norm_num)]
    rw [show ((350 : ℝ) / 350) = 1 by norm_num, Real.log_one, mul_zero, Int.ceil_zero]
    rfl

/-- Witness for C3's amended theorem at the brand-new-player uncertainty 350. -/
theorem getMatchesForReliableRating_amended_witness :
    (100 : ℝ) < 350
    ∧ getMatchesForReliableRating ((350 : ℝ) / 173.7178)
        = max 0 (7 - ⌈(-2.04) * Real.log ((350 : ℝ) / 350)⌉) :=
  ⟨by norm_num, (getMatchesForReliableRating_amended 350).1 (by norm_num)⟩

/-- Witness for C5 at concrete players with 0 and 5 matches played. -/
theorem playerToGlicko2_uncertainty_witness :
    matchesPlayedOf ⟨"A", 1500, [], true, none⟩ = 0
    ∧ (playerToGlicko2 ⟨"A", 1500, [], true, none⟩).rd * 173.7178 = 350
    ∧ matchesPlayedOf ⟨"B", 1500, [], true, some ⟨3, 2, 5, 60, 1500⟩⟩ = 5
    ∧ (playerToGlicko2 ⟨"B", 1500, [], true, some ⟨3, 2, 5, 60, 1500⟩⟩).rd * 173.7178 = 50 :=
  ⟨rfl,
   (playerToGlicko2_uncertainty ⟨"A", 1500, [], true, none⟩
      ⟨"A", 1500, [], true, none⟩).2.2.2.2.1 rfl,
   rfl,
   (playerToGlicko2_uncertainty ⟨"B", 1500, [], true, some ⟨3, 2, 5, 60, 1500⟩⟩
      ⟨"B", 1500, [], true, some ⟨3, 2, 5, 60, 1500⟩⟩).2.2.2.2.2 rfl⟩

/-- `calculateWinRate` of `src/firebase/matchService.ts`:
`Math.round((wins / totalMatches) * 100 * 10) / 10`, and 0 when no matches
have been played. -/
def calculateWinRate (wins totalMatches : ℕ) : ℚ :=
  if totalMatches = 0 then 0
  else ((round ((wins : ℚ) / (totalMatches : ℚ) * 100 * 10) : ℤ) : ℚ) / 10

/-- The statistics object read and written by `recordMatchResult`
(`PlayerStats` of `src/app/types.ts` as used in `matchService.ts`). -/
structure MatchStats where
  wins : ℕ
  losses : ℕ
  matchesPlayed : ℕ
  winRate : ℚ
  deriving DecidableEq, Repr

/-- The `updatedStats` object built inside `recordMatchResult`
(`src/firebase/matchService.ts`): the winner gains a win, the loser a loss,
both gain a played match, and the win rate is recomputed. -/
def updatedStats (currentStats : MatchStats) (isWinner : Bool) : MatchStats :=
  { wins := if isWinner then currentStats.wins + 1 else currentStats.wins
    losses := if isWinner then currentStats.losses else currentStats.losses + 1
    matchesPlayed := currentStats.matchesPlayed + 1
    winRate := calculateWinRate
      (if isWinner then currentStats.wins + 1 else currentStats.wins)
      (currentStats.matchesPlayed + 1) }

/-- C8: recording a match preserves `matchesPlayed = wins + losses`, increments
the right counters, and stores `winRate = round(wins/matchesPlayed · 1000)/10`
(one decimal place), with `calculateWinRate _ 0 = 0`. -/
theorem recordMatchResult_stats_spec (s : MatchStats) (isWinner : Bool)
    (h : s.matchesPlayed = s.wins + s.losses) :
    (updatedStats s isWinner).matchesPlayed
        = (updatedStats s isWinner).wins + (updatedStats s isWinner).losses
    ∧ (updatedStats s isWinner).matchesPlayed = s.matchesPlayed + 1
    ∧ (isWinner = true → (updatedStats s isWinner).wins = s.wins + 1
        ∧ (updatedStats s isWinner).losses = s.losses)
    ∧ (isWinner = false → (updatedStats s isWinner).wins = s.wins
        ∧ (updatedStats s isWinner).losses = s.losses + 1)
    ∧ (updatedStats s isWinner).winRate
        = ((round (((updatedStats s isWinner).wins : ℚ)
              / ((updatedStats s isWinner).matchesPlayed : ℚ) * 100 * 10) : ℤ) : ℚ) / 10
    ∧ (∀ w : ℕ, calculateWinRate w 0 = 0) := by
  cases isWinner <;>
    refine ⟨by simp [updatedStats]; omega, by simp [updatedStats], ?_, ?_, ?_, fun w => rfl⟩ <;>
    simp [updatedStats, calculateWinRate]

/-- Witness for C8 at the concrete statistics (2 wins, 1 loss, 3 played). -/
theorem recordMatchResult_stats_witness :
    ((⟨2, 1, 3, 66.7⟩ : MatchStats).matchesPlayed
        = (⟨2, 1, 3, 66.7⟩ : MatchStats).wins + (⟨2, 1, 3, 66.7⟩ : MatchStats).losses)
    ∧ (updatedStats ⟨2, 1, 3, 66.7⟩ true).matchesPlayed
        = (updatedStats ⟨2, 1, 3, 66.7⟩ true).wins
            + (updatedStats ⟨2, 1, 3, 66.7⟩ true).losses :=
  ⟨by decide, (recordMatchResult_stats_spec ⟨2, 1, 3, 66.7⟩ true (by decide)).1⟩

/-- The five roles in the key-insertion order of the `roleCounts` record of
`calculateTeamRoleScore` (`src/app/teams/page.tsx`). -/
def allRoles : List Role :=
  [.Roam, .Mid, .Gold, .Jungle, .Exp]

/-- `calculateTeamRoleScore` of `src/app/teams/page.tsx`: +10 per distinct role
covered, −2 per duplicate occurrence of a role beyond the first. -/
def calculateTeamRoleScore (team : List Player) : ℤ :=
  let teamRoles := team.bind (fun p => p.roles)
  let rolesCovered := teamRoles.dedup
  let base : ℤ := (rolesCovered.length : ℤ) * 10
  allRoles.foldl (fun score r =>
    let count := teamRoles.count r
    if 1 < count then score - ((count : ℤ) - 1) * 2 else score) base

/-- The combined objective of the refinement loop in `randomizeTeams`
(`src/app/teams/page.tsx`): role score of both teams minus twice the absolute
difference of the rounded team-average MMRs. -/
def combinedScore (team1 team2 : List Player) : ℤ :=
  (calculateTeamRoleScore team1 + calculateTeamRoleScore team2)
    - |calculateTeamAverageMmr team1 - calculateTeamAverageMmr team2| * 2

/-- The `bestTeam1 / bestTeam2 / bestScore` accumulator of the refinement loop
of `randomizeTeams`. -/
structure BalanceState where
  bestTeam1 : List Player
  bestTeam2 : List Player
  bestScore : ℤ
  deriving Repr

/-- The snake-draft index pattern of `randomizeTeams`: positions `0` and `3`
modulo 4 go to team 1. -/
def snakePred (i : ℕ) : Bool :=
  i % 4 == 0 || i % 4 == 3

/-- The seeding stage of `randomizeTeams` (`src/app/teams/page.tsx`): sort the
pool descending by effective MMR, deal indices `0,3 (mod 4)` to team 1 and
`1,2 (mod 4)` to team 2, then — for an odd pool — move the last player of a
team that is more than one player larger to the other team. -/
def seedTeams (selectedPlayers : List Player) : List Player × List Player :=
  let sortedPlayers :=
    List.insertionSort (fun a b => getPlayerMmr b ≤ getPlayerMmr a) selectedPlayers
  let team1 := (sortedPlayers.enum.filter (fun ip => snakePred ip.1)).map Prod.snd
  let team2 := (sortedPlayers.enum.filter (fun ip => !snakePred ip.1)).map Prod.snd
  if selectedPlayers.length % 2 ≠ 0 then
    if team2.length + 1 < team1.length then
      match team1.getLast? with
      | some playerToMove => (team1.dropLast, team2 ++ [playerToMove])
      | none => (team1, team2)
    else if team1.length + 1 < team2.length then
      match team2.getLast? with
      | some playerToMove => (team1 ++ [playerToMove], team2.dropLast)
      | none => (team1, team2)
    else (team1, team2)
  else (team1, team2)

/-- One trial iteration of the refinement loop of `randomizeTeams`: pick one
index in each (seeded) team from the random choice pair, swap the two players
on temporary copies, and keep the arrangement only when its combined score
strictly beats the best seen. -/
def attemptSwap (team1 team2 : List Player) (st : BalanceState) (choice : ℕ × ℕ) :
    BalanceState :=
  let team1Index := choice.1 % team1.length
  let team2Index := choice.2 % team2.length
  match team1[team1Index]?, team2[team2Index]? with
  | some p1, some p2 =>
    let team1Temp := team1.set team1Index p2
    let team2Temp := team2.set team2Index p1
    let score := combinedScore team1Temp team2Temp
    if st.bestScore < score then ⟨team1Temp, team2Temp, score⟩ else st
  | _, _ => st

/-- `randomizeTeams` of `src/app/teams/page.tsx`.  The ambient `Math.random()`
draws of the 200-trial refinement loop are passed in as an explicit list of
index pairs (each reduced modulo the team size, the range `Math.floor(
Math.random() * length)` produces).  The `<2`-player input error is the
`Except.error` branch; a successful partition is `Except.ok`. -/
def randomizeTeams (players : List Player) (choices : List (ℕ × ℕ)) :
    Except String (List Player × List Player) :=
  let selectedPlayers := players.filter (fun p => p.isSelected)
  if selectedPlayers.length < 2 then
    Except.error "Please select at least 2 players to randomize teams"
  else
    let seeded := seedTeams selectedPlayers
    let init : BalanceState := ⟨seeded.1, seeded.2, combinedScore seeded.1 seeded.2⟩
    let final := choices.foldl (attemptSwap seeded.1 seeded.2) init
    Except.ok (final.bestTeam1, final.bestTeam2)

/-- Number of indices below `n` that the snake pattern deals to team 1. -/
def snakeCount (n : ℕ) : ℕ :=
  (List.range n).countP snakePred

/-- Number of indices below `n` that the snake pattern deals to team 2. -/
def snakeCount2 (n : ℕ) : ℕ :=
  (List.range n).countP (fun i => !snakePred i)

theorem snakeCount_succ (n : ℕ) :
    snakeCount (n + 1) = snakeCount n + if snakePred n then 1 else 0 := by
  simp [snakeCount, List.range_succ, List.countP_append, List.countP_cons]

theorem snakeCount2_succ (n : ℕ) :
    snakeCount2 (n + 1) = snakeCount2 n + if snakePred n then 0 else 1 := by
  simp only [snakeCount2, List.range_succ, List.countP_append, List.countP_cons]
  cases hp : snakePred n <;> simp [hp]

/-- Balance of the snake pattern: the two teams it deals differ by at most one
player, team 1 being larger exactly when `n % 4 = 1` and smaller exactly when
`n % 4 = 3`. -/
theorem snakeCount_balance (n : ℕ) :
    ((n % 4 = 0 ∨ n % 4 = 2) → 2 * snakeCount n = n)
    ∧ (n % 4 = 1 → 2 * snakeCount n = n + 1)
    ∧ (n % 4 = 3 → 2 * snakeCount n + 1 = n) := by
  induction n with
  | zero => simp [snakeCount]
  | succ n ih =>
    obtain ⟨h02, h1, h3⟩ := ih
    rcases (by omega : n % 4 = 0 ∨ n % 4 = 1 ∨ n % 4 = 2 ∨ n % 4 = 3) with h | h | h | h
    · have e := h02 (Or.inl h)
      have s : snakeCount (n + 1) = snakeCount n + 1 := by
        rw [snakeCount_succ]; simp [snakePred, h]
      refine ⟨fun hh => ?_, fun hh => ?_, fun hh => ?_⟩ <;> omega
    · have e := h1 h
      have s : snakeCount (n + 1) = snakeCount n := by
        rw [snakeCount_succ]; simp [snakePred, h]
      refine ⟨fun hh => ?_, fun hh => ?_, fun hh => ?_⟩ <;> omega
    · have e := h02 (Or.inr h)
      have s : snakeCount (n + 1) = snakeCount n := by
        rw [snakeCount_succ]; simp [snakePred, h]
      refine ⟨fun hh => ?_, fun hh => ?_, fun hh => ?_⟩ <;> omega
    · have e := h3 h
      have s : snakeCount (n + 1) = snakeCount n + 1 := by
        rw [snakeCount_succ]; simp [snakePred, h]
      refine ⟨fun hh => ?_, fun hh => ?_, fun hh => ?_⟩ <;> omega

theorem snakeCount_add_snakeCount2 (n : ℕ) :
    snakeCount n + snakeCount2 n = n := by
  induction n with
  | zero => simp [snakeCount, snakeCount2]
  | succ n ih =>
    rw [snakeCount_succ, snakeCount2_succ]
    cases hp : snakePred n <;> simp [hp] <;> omega

/-- The two snake-dealt teams differ in size by at most one. -/
theorem snakeCount_diff (n : ℕ) :
    snakeCount n ≤ snakeCount2 n + 1 ∧ snakeCount2 n ≤ snakeCount n + 1 := by
  have hsum := snakeCount_add_snakeCount2 n
  obtain ⟨h02, h1, h3⟩ := snakeCount_balance n
  rcases (by omega : n % 4 = 0 ∨ n % 4 = 1 ∨ n % 4 = 2 ∨ n % 4 = 3) with h | h | h | h
  · have := h02 (Or.inl h); omega
  · have := h1 h; omega
  · have := h02 (Or.inr h); omega
  · have := h3 h; omega

/-- Length of a snake-dealt team, via the index pattern over `range`. -/
theorem snake_filter_length (l : List Player) (p : ℕ → Bool) :
    ((l.enum.filter (fun ip => p ip.1)).map Prod.snd).length
      = (List.range l.length).countP p := by
  rw [List.length_map, ← List.countP_eq_length_filter]
  rw [← List.enum_map_fst l, List.countP_map]
  rfl

/-- Length of the complementary (team 2) snake-dealt team. -/
theorem snake_filter_length2 (l : List Player) :
    ((l.enum.filter (fun ip => !snakePred ip.1)).map Prod.snd).length
      = (List.range l.length).countP (fun i => !snakePred i) := by
  rw [List.length_map, ← List.countP_eq_length_filter]
  rw [← List.enum_map_fst l, List.countP_map]
  rfl

/-- The two snake-dealt teams together are a permutation of the dealt list. -/
theorem snake_filter_perm (l : List Player) :
    (((l.enum.filter (fun ip => snakePred ip.1)).map Prod.snd)
      ++ ((l.enum.filter (fun ip => !snakePred ip.1)).map Prod.snd)).Perm l := by
  rw [← List.map_append]
  have h := List.filter_append_perm (fun ip => snakePred ip.1) l.enum
  have h2 := h.map Prod.snd
  rw [List.enum_map_snd] at h2
  exact h2

/-- The odd-pool size-reconciliation step of `randomizeTeams` never fires: the
snake pattern already deals teams whose sizes differ by at most one, so
`seedTeams` always returns the two snake-dealt teams unchanged. -/
theorem seedTeams_eq (pool : List Player) :
    seedTeams pool =
      (((List.insertionSort (fun a b => getPlayerMmr b ≤ getPlayerMmr a) pool).enum.filter
          (fun ip => snakePred ip.1)).map Prod.snd,
       ((List.insertionSort (fun a b => getPlayerMmr b ≤ getPlayerMmr a) pool).enum.filter
          (fun ip => !snakePred ip.1)).map Prod.snd) := by
  have hsl : (List.insertionSort (fun a b => getPlayerMmr b ≤ getPlayerMmr a) pool).length
      = pool.length := (List.perm_insertionSort _ pool).length_eq
  simp only [seedTeams]
  set s := List.insertionSort (fun a b => getPlayerMmr b ≤ getPlayerMmr a) pool with hs
  set t1 := (s.enum.filter (fun ip => snakePred ip.1)).map Prod.snd with ht1
  set t2 := (s.enum.filter (fun ip => !snakePred ip.1)).map Prod.snd with ht2
  have hl1 : t1.length = snakeCount pool.length := by
    rw [ht1, snake_filter_length, hsl]; rfl
  have hl2 : t2.length = snakeCount2 pool.length := by
    rw [ht2, snake_filter_length2, hsl]; rfl
  have hdiff := snakeCount_diff pool.length
  have h2f : ¬(t2.length + 1 < t1.length) := by rw [hl1, hl2]; omega
  have h3f : ¬(t1.length + 1 < t2.length) := by rw [hl1, hl2]; omega
  by_cases hodd : pool.length % 2 ≠ 0
  · rw [if_pos hodd, if_neg h2f, if_neg h3f]
  · rw [if_neg hodd]

/-- Size and membership properties of the seeded split: sizes sum to the pool
size and differ by at most one, and the two teams together permute the pool. -/
theorem seedTeams_spec (pool : List Player) :
    (seedTeams pool).1.length + (seedTeams pool).2.length = pool.length
    ∧ (seedTeams pool).1.length ≤ (seedTeams pool).2.length + 1
    ∧ (seedTeams pool).2.length ≤ (seedTeams pool).1.length + 1
    ∧ ((seedTeams pool).1 ++ (seedTeams pool).2).Perm pool := by
  have hsl : (List.insertionSort (fun a b => getPlayerMmr b ≤ getPlayerMmr a) pool).length
      = pool.length := (List.perm_insertionSort _ pool).length_eq
  rw [seedTeams_eq]
  dsimp only
  set s := List.insertionSort (fun a b => getPlayerMmr b ≤ getPlayerMmr a) pool with hs
  set t1 := (s.enum.filter (fun ip => snakePred ip.1)).map Prod.snd with ht1
  set t2 := (s.enum.filter (fun ip => !snakePred ip.1)).map Prod.snd with ht2
  have hl1 : t1.length = snakeCount pool.length := by
    rw [ht1, snake_filter_length, hsl]; rfl
  have hl2 : t2.length = snakeCount2 pool.length := by
    rw [ht2, snake_filter_length2, hsl]; rfl
  have hsum := snakeCount_add_snakeCount2 pool.length
  have hdiff := snakeCount_diff pool.length
  refine ⟨by omega, by omega, by omega, ?_⟩
  exact (snake_filter_perm s).trans (List.perm_insertionSort _ pool)

/-- Swapping one element of each team (the refinement-loop move) preserves the
combined multiset of players. -/
theorem perm_swapped_set (t1 t2 : List Player) (i j : ℕ) (p1 p2 : Player)
    (h1 : t1[i]? = some p1) (h2 : t2[j]? = some p2) :
    (t1.set i p2 ++ t2.set j p1).Perm (t1 ++ t2) := by
  obtain ⟨hi, e1⟩ := List.getElem?_eq_some_iff.mp h1
  obtain ⟨hj, e2⟩ := List.getElem?_eq_some_iff.mp h2
  have d1 : t1 = t1.take i ++ p1 :: t1.drop (i + 1) := by
    conv_lhs => rw [← List.take_append_drop i t1]
    rw [← List.getElem_cons_drop t1 i hi, e1]
  have d2 : t2 = t2.take j ++ p2 :: t2.drop (j + 1) := by
    conv_lhs => rw [← List.take_append_drop j t2]
    rw [← List.getElem_cons_drop t2 j hj, e2]
  have s1 : t1.set i p2 = t1.take i ++ p2 :: t1.drop (i + 1) := by
    rw [List.set_eq_take_append_cons_drop, if_pos hi]
  have s2 : t2.set j p1 = t2.take j ++ p1 :: t2.drop (j + 1) := by
    rw [List.set_eq_take_append_cons_drop, if_pos hj]
  rw [s1, s2]
  conv_rhs => rw [d1, d2]
  rw [← Multiset.coe_eq_coe]
  simp only [← Multiset.coe_add, ← Multiset.cons_coe, ← Multiset.singleton_add]
  abel

/-- The loop invariant of the refinement loop of `randomizeTeams`: the best
arrangement so far has the seeded team sizes, holds exactly the seeded players,
its stored score is its real combined score, and that score never drops below
`base` (the seeded score). -/
def SwapInv (team1 team2 : List Player) (base : ℤ) (st : BalanceState) : Prop :=
  st.bestTeam1.length = team1.length
  ∧ st.bestTeam2.length = team2.length
  ∧ (st.bestTeam1 ++ st.bestTeam2).Perm (team1 ++ team2)
  ∧ combinedScore st.bestTeam1 st.bestTeam2 = st.bestScore
  ∧ base ≤ st.bestScore

theorem attemptSwap_inv (team1 team2 : List Player) (base : ℤ) (st : BalanceState)
    (c : ℕ × ℕ) (h : SwapInv team1 team2 base st) :
    SwapInv team1 team2 base (attemptSwap team1 team2 st c) := by
  cases h1 : team1[c.1 % team1.length]? with
  | none => simpa [attemptSwap, h1] using h
  | some p1 =>
    cases h2 : team2[c.2 % team2.length]? with
    | none => simpa [attemptSwap, h1, h2] using h
    | some p2 =>
      by_cases hs : st.bestScore <
          combinedScore (team1.set (c.1 % team1.length) p2) (team2.set (c.2 % team2.length) p1)
      · have hres : attemptSwap team1 team2 st c =
            ⟨team1.set (c.1 % team1.length) p2, team2.set (c.2 % team2.length) p1,
              combinedScore (team1.set (c.1 % team1.length) p2)
                (team2.set (c.2 % team2.length) p1)⟩ := by
          simp [attemptSwap, h1, h2, if_pos hs]
        rw [hres]
        refine ⟨by simp [List.length_set], by simp [List.length_set], ?_, rfl, ?_⟩
        · exact perm_swapped_set team1 team2 _ _ p1 p2 h1 h2
        · have := h.2.2.2.2
          linarith
      · have hres : attemptSwap team1 team2 st c = st := by
          simp [attemptSwap, h1, h2, if_neg hs]
        rw [hres]
        exact h

theorem foldl_attemptSwap_inv (team1 team2 : List Player) (base : ℤ)
    (choices : List (ℕ × ℕ)) (st : BalanceState) (h : SwapInv team1 team2 base st) :
    SwapInv team1 team2 base (choices.foldl (attemptSwap team1 team2) st) := by
  induction choices generalizing st with
  | nil => exact h
  | cons c cs ih =>
    exact ih _ (attemptSwap_inv team1 team2 base st c h)

/-- C2: whenever `randomizeTeams` succeeds, the two returned teams' sizes sum
to the selected pool size and differ by at most one, and together they are
exactly the selected pool as a multiset (no player duplicated or dropped; in
particular a duplicate-free pool yields duplicate-free teams). -/
theorem randomizeTeams_partition (players : List Player) (choices : List (ℕ × ℕ))
    (t1 t2 : List Player)
    (h : randomizeTeams players choices = Except.ok (t1, t2)) :
    t1.length + t2.length = (players.filter (fun p => p.isSelected)).length
    ∧ t1.length ≤ t2.length + 1
    ∧ t2.length ≤ t1.length + 1
    ∧ (t1 ++ t2).Perm (players.filter (fun p => p.isSelected))
    ∧ ((players.filter (fun p => p.isSelected)).Nodup → (t1 ++ t2).Nodup) := by
  by_cases hlen : (players.filter (fun p => p.isSelected)).length < 2
  · rw [randomizeTeams] at h
    rw [if_pos hlen] at h
    exact absurd h (by simp)
  · rw [randomizeTeams] at h
    rw [if_neg hlen] at h
    simp only [Except.ok.injEq, Prod.mk.injEq] at h
    obtain ⟨h1, h2⟩ := h
    have inv := foldl_attemptSwap_inv
      (seedTeams (players.filter (fun p => p.isSelected))).1
      (seedTeams (players.filter (fun p => p.isSelected))).2
      (combinedScore (seedTeams (players.filter (fun p => p.isSelected))).1
        (seedTeams (players.filter (fun p => p.isSelected))).2)
      choices
      ⟨(seedTeams (players.filter (fun p => p.isSelected))).1,
       (seedTeams (players.filter (fun p => p.isSelected))).2,
       combinedScore (seedTeams (players.filter (fun p => p.isSelected))).1
         (seedTeams (players.filter (fun p => p.isSelected))).2⟩
      ⟨rfl, rfl, List.Perm.refl _, rfl, le_refl _⟩
    obtain ⟨l1, l2, pm, _, _⟩ := inv
    rw [h1] at l1 pm
    rw [h2] at l2 pm
    obtain ⟨hsum, hd1, hd2, hperm⟩ := seedTeams_spec (players.filter (fun p => p.isSelected))
    have hl1 : ((seedTeams (players.filter (fun p => p.isSelected))).1
        ++ (seedTeams (players.filter (fun p => p.isSelected))).2).length
        = (players.filter (fun p => p.isSelected)).length := by
      rw [List.length_append]; omega
    have permTotal := pm.trans hperm
    refine ⟨by omega, by omega, by omega, permTotal, fun hnd => permTotal.nodup_iff.mpr hnd⟩

/-- A concrete selected player used by witnesses. -/
def samplePlayerA : Player :=
  ⟨"A", 1500, [.Roam], true, none⟩

/-- A concrete selected player used by witnesses. -/
def samplePlayerB : Player :=
  ⟨"B", 1400, [.Mid], true, none⟩

/-- A concrete selected player used by witnesses. -/
def samplePlayerC : Player :=
  ⟨"C", 1500, [.Gold], true, none⟩

/-- A concrete selected player used by witnesses. -/
def samplePlayerD : Player :=
  ⟨"D", 1400, [.Exp], true, none⟩

/-- Witness for C2 on a concrete two-player pool with no random swaps. -/
theorem randomizeTeams_partition_witness :
    randomizeTeams [samplePlayerA, samplePlayerB] []
        = Except.ok ([samplePlayerA], [samplePlayerB])
    ∧ [samplePlayerA].length + [samplePlayerB].length
        = ([samplePlayerA, samplePlayerB].filter (fun p => p.isSelected)).length
    ∧ ([samplePlayerA] ++ [samplePlayerB]).Perm
        ([samplePlayerA, samplePlayerB].filter (fun p => p.isSelected)) :=
  have h : randomizeTeams [samplePlayerA, samplePlayerB] []
      = Except.ok ([samplePlayerA], [samplePlayerB]) := by
    rfl
  ⟨h, (randomizeTeams_partition _ [] _ _ h).1, (randomizeTeams_partition _ [] _ _ h).2.2.2.1⟩

/-- C6: whenever `randomizeTeams` succeeds, the combined objective score
(role scores minus twice the team-average-MMR gap) of the returned pair is at
least the score of the seeded snake-draft arrangement: the 200-trial
refinement never regresses below the seeded baseline. -/
theorem randomizeTeams_no_regress (players : List Player) (choices : List (ℕ × ℕ))
    (t1 t2 : List Player)
    (h : randomizeTeams players choices = Except.ok (t1, t2)) :
    combinedScore (seedTeams (players.filter (fun p => p.isSelected))).1
        (seedTeams (players.filter (fun p => p.isSelected))).2
      ≤ combinedScore t1 t2 := by
  by_cases hlen : (players.filter (fun p => p.isSelected)).length < 2
  · rw [randomizeTeams] at h
    rw [if_pos hlen] at h
    exact absurd h (by simp)
  · rw [randomizeTeams] at h
    rw [if_neg hlen] at h
    simp only [Except.ok.injEq, Prod.mk.injEq] at h
    obtain ⟨h1, h2⟩ := h
    have inv := foldl_attemptSwap_inv
      (seedTeams (players.filter (fun p => p.isSelected))).1
      (seedTeams (players.filter (fun p => p.isSelected))).2
      (combinedScore (seedTeams (players.filter (fun p => p.isSelected))).1
        (seedTeams (players.filter (fun p => p.isSelected))).2)
      choices
      ⟨(seedTeams (players.filter (fun p => p.isSelected))).1,
       (seedTeams (players.filter (fun p => p.isSelected))).2,
       combinedScore (seedTeams (players.filter (fun p => p.isSelected))).1
         (seedTeams (players.filter (fun p => p.isSelected))).2⟩
      ⟨rfl, rfl, List.Perm.refl _, rfl, le_refl _⟩
    obtain ⟨_, _, _, hsc, hbase⟩ := inv
    rw [h1, h2] at hsc
    omega

/-- Witness for C6 on a concrete two-player pool with no random swaps. -/
theorem randomizeTeams_no_regress_witness :
    randomizeTeams [samplePlayerC, samplePlayerD] []
        = Except.ok ([samplePlayerC], [samplePlayerD])
    ∧ combinedScore
        (seedTeams ([samplePlayerC, samplePlayerD].filter (fun p => p.isSelected))).1
        (seedTeams ([samplePlayerC, samplePlayerD].filter (fun p => p.isSelected))).2
      ≤ combinedScore [samplePlayerC] [samplePlayerD] :=
  have h : randomizeTeams [samplePlayerC, samplePlayerD] []
      = Except.ok ([samplePlayerC], [samplePlayerD]) := by
    rfl
  ⟨h, randomizeTeams_no_regress _ [] _ _ h⟩

/-- C7: with fewer than two selected players, `randomizeTeams` reports the
input error and performs no partition (no teams are produced); with at least
two selected players it does not report this error and returns a partition. -/
theorem randomizeTeams_validation (players : List Player) (choices : List (ℕ × ℕ)) :
    ((players.filter (fun p => p.isSelected)).length < 2 →
      randomizeTeams players choices
        = Except.error "Please select at least 2 players to randomize teams")
    ∧ (2 ≤ (players.filter (fun p => p.isSelected)).length →
      ∃ teams, randomizeTeams players choices = Except.ok teams) := by
  constructor
  · intro hlen
    rw [randomizeTeams, if_pos hlen]
  · intro hlen
    rw [randomizeTeams, if_neg (by omega)]
    exact ⟨_, rfl⟩

/-- Witness for C7: a single-player pool is rejected with the input error. -/
theorem randomizeTeams_validation_witness :
    (([samplePlayerA].filter (fun p => p.isSelected)).length < 2)
    ∧ randomizeTeams [samplePlayerA] []
        = Except.error "Please select at least 2 players to randomize teams" :=
  ⟨by decide, (randomizeTeams_validation [samplePlayerA] []).1 (by decide)⟩
